import Mathlib

/-!
# Verification of the RWS lidar analysis pipeline

Shallow embedding of `src/analysis_rws.py` (Doppler wind-profile lidar RWS
analysis).  Floating-point column values are modelled as rationals; a pandas
`NaN` produced by aggregating an empty series is modelled as `none`; a Python
exception that aborts a function (the `ZeroDivisionError` in the retain-ratio
report of `apply_cnr_filter`) makes the embedded function return `none`.
-/

/-- One row of the loaded table: columns `Timestamp`, `Azimuth(deg)`,
`Elevation(deg)`, `Distance(m)`, `RWS(m/s)`, `CNR(dB)`.  The parsed timestamp
is modelled as an integer epoch value; all measurement columns as rationals. -/
structure LidarRecord where
  timestamp : ℤ
  azimuth : ℚ
  elevation : ℚ
  distance : ℚ
  rws : ℚ
  cnr : ℚ
deriving DecidableEq, Repr

/-- Model of `pandas.Series.mean`: arithmetic mean; `NaN` (here `none`) on an empty
series. -/
def series_mean (l : List ℚ) : Option ℚ :=
  if l = [] then none else some (l.sum / l.length)

/-- Model of `pandas.Series.min`: smallest value; `NaN` (here `none`) on an empty
series. -/
def series_min (l : List ℚ) : Option ℚ :=
  l.foldr (fun x acc => match acc with
    | none => some x
    | some y => some (min x y)) none

/-- Model of `pandas.Series.max`: largest value; `NaN` (here `none`) on an empty
series. -/
def series_max (l : List ℚ) : Option ℚ :=
  l.foldr (fun x acc => match acc with
    | none => some x
    | some y => some (max x y)) none

/-- The square of `pandas.Series.std` (default `ddof = 1`): the sample
variance, dividing the sum of squared deviations by `n - 1`.  The standard
deviation itself is the square root of this value; the square is kept so the
definition stays within exact rational arithmetic.  `std` is `NaN` (here
`none`) when the series has fewer than two elements. -/
def series_var (l : List ℚ) : Option ℚ :=
  if l.length < 2 then none else
    let m := l.sum / l.length
    some ((l.map (fun x => (x - m) ^ 2)).sum / ((l.length : ℚ) - 1))

/-- Model of `pandas.Series.quantile q` with the default linear interpolation: sort the
sample, take position `q * (n - 1)`, and interpolate linearly between the
order statistics at the floor and ceiling indices.  `NaN` (here `none`) on an
empty series. -/
def series_quantile (l : List ℚ) (q : ℚ) : Option ℚ :=
  if l = [] then none else
    let s := l.insertionSort (· ≤ ·)
    let pos := q * ((l.length : ℚ) - 1)
    let i := (⌊pos⌋).toNat
    let lo := s.getD i 0
    let hi := s.getD (i + 1) lo
    some (lo + (pos - (⌊pos⌋ : ℚ)) * (hi - lo))

/-- Model of `pandas.Series.median`: the 0.5 quantile under linear interpolation. -/
def series_median (l : List ℚ) : Option ℚ :=
  series_quantile l (1 / 2)

/-- The angle mask of `single_angle_statistics` (and of the other per-angle
analyses): absolute azimuth and elevation differences both strictly below the
fixed tolerance `0.1`, combined with `&`. -/
def angle_mask (azimuth elevation : ℚ) (r : LidarRecord) : Bool :=
  (|r.azimuth - azimuth| < 1 / 10) && (|r.elevation - elevation| < 1 / 10)

/-- Selection `df[mask]` for the angle mask: the records matching a pointing direction,
in their original order. -/
def select_angles (df : List LidarRecord) (azimuth elevation : ℚ) :
    List LidarRecord :=
  df.filter (angle_mask azimuth elevation)

/-- Model of `apply_cnr_filter(df, cnr_threshold)`: keeps the rows with
`CNR(dB) >= cnr_threshold`.  Before returning it prints the retain ratio
`after_count / before_count`; on an empty input this division raises
`ZeroDivisionError` and the function never returns, modelled by `none`. -/
def apply_cnr_filter (df : List LidarRecord) (cnr_threshold : ℚ) :
    Option (List LidarRecord) :=
  let df_filtered := df.filter (fun r => cnr_threshold ≤ r.cnr)
  if df.length = 0 then none else some df_filtered

/-- The per-sample statistics printed by `compare_cnr_filtering` for one side
of the comparison: count, and pandas mean / std / min / max of the
`RWS(m/s)` column (std represented by its square, `series_var`). -/
structure RwsStats where
  count : ℕ
  mean : Option ℚ
  std_sq : Option ℚ
  min : Option ℚ
  max : Option ℚ
deriving DecidableEq, Repr

/-- The statistics block `compare_cnr_filtering` computes over one sample. -/
def rws_stats (data : List LidarRecord) : RwsStats :=
  let l := data.map (·.rws)
  { count := data.length
    mean := series_mean l
    std_sq := series_var l
    min := series_min l
    max := series_max l }

/-- Model of `compare_cnr_filtering(df, azimuth, elevation, cnr_threshold)`: selects the
angle combination, returns early (`none`) when that selection is empty, then
compares statistics before and after the CNR filter.  The CNR-filtered subset
is aggregated without any emptiness check. -/
def compare_cnr_filtering (df : List LidarRecord)
    (azimuth elevation cnr_threshold : ℚ) : Option (RwsStats × RwsStats) :=
  let data_all := select_angles df azimuth elevation
  if data_all = [] then none
  else
    let data_filtered := data_all.filter (fun r => cnr_threshold ≤ r.cnr)
    some (rws_stats data_all, rws_stats data_filtered)

/-- The statistics dict of `single_angle_statistics`: count, mean, median,
std (represented by its square), min, max and the P10/P50/P90 quantiles of
the selected `RWS(m/s)` sample. -/
structure SingleAngleStats where
  count : ℕ
  mean : Option ℚ
  median : Option ℚ
  std_sq : Option ℚ
  min : Option ℚ
  max : Option ℚ
  p10 : Option ℚ
  p50 : Option ℚ
  p90 : Option ℚ
deriving DecidableEq, Repr

/-- Model of `single_angle_statistics(df, azimuth, elevation)`: selects the angle
combination with `angle_mask`, returns `None` when no record matches, and
otherwise aggregates the `RWS(m/s)` column. -/
def single_angle_statistics (df : List LidarRecord) (azimuth elevation : ℚ) :
    Option SingleAngleStats :=
  let data := (select_angles df azimuth elevation).map (·.rws)
  if data = [] then none
  else some
    { count := data.length
      mean := series_mean data
      median := series_median data
      std_sq := series_var data
      min := series_min data
      max := series_max data
      p10 := series_quantile data (1 / 10)
      p50 := series_quantile data (1 / 2)
      p90 := series_quantile data (9 / 10) }

/-- The group keys of a pandas `groupby` on exact values: the distinct values
present, sorted ascending. -/
def group_keys (vals : List ℚ) : List ℚ :=
  vals.dedup.insertionSort (· ≤ ·)

/-- The `groupby('Distance(m)') ... count` aggregation of
`analyze_rws_by_distance`: for each distinct distance value (ascending), the
number of records at that exact distance. -/
def distance_group_counts (data : List LidarRecord) : List (ℚ × ℕ) :=
  (group_keys (data.map (·.distance))).map
    (fun k => (k, (data.filter (fun r => r.distance = k)).length))

/-- The wind-rose aggregation of `plot_wind_rose`: group the full input by
exact equality on `Azimuth(deg)` (keys ascending, as `groupby` yields them)
and compute the mean of `|RWS(m/s)|` per group. -/
def wind_rose (df : List LidarRecord) : List (ℚ × Option ℚ) :=
  (group_keys (df.map (·.azimuth))).map
    (fun k => (k, series_mean ((df.filter (fun r => r.azimuth = k)).map
      (fun r => |r.rws|))))

/-- Python `round(x, 2)` on a column value, used to build `AngleComb`
(string formatting of the rounded values is elided: only the rounded numbers
are kept). -/
def round2 (q : ℚ) : ℚ :=
  ((round (q * 100) : ℤ) : ℚ) / 100

/-- The loaded table: its rows plus the optional derived `AngleComb` column
(present only after `get_data_overview` has added it; its string rendering is
modelled by the pair of rounded angles). -/
structure DataFrame where
  records : List LidarRecord
  angleComb : Option (List (ℚ × ℚ))
deriving DecidableEq

/-- Model of `get_data_overview(df)`: prints summary text and executes
`df['AngleComb'] = df['Azimuth(deg)'].round(2) ... + df['Elevation(deg)'].round(2) ...`,
assigning a new column on the input table in place, then returns that same
table. -/
def get_data_overview (df : DataFrame) : DataFrame :=
  { df with
    angleComb := some (df.records.map fun r => (round2 r.azimuth, round2 r.elevation)) }

/-- State of the input table after a call to `apply_cnr_filter`: the function
only reads `df` (boolean-mask selection followed by `.copy()`), so the input
is unchanged. -/
def apply_cnr_filter_input_after (df : DataFrame) : DataFrame := df

/-- State of the input table after a call to `single_angle_statistics`: the
function only reads `df` (mask, selection and reductions), so the input is
unchanged. -/
def single_angle_statistics_input_after (df : DataFrame) : DataFrame := df

/-! ## Helper lemmas -/

/-- A stronger filter predicate never keeps more elements than a weaker one. -/
theorem length_filter_mono {α : Type} (l : List α) (p q : α → Bool)
    (h : ∀ a, p a = true → q a = true) :
    (l.filter p).length ≤ (l.filter q).length := by
  induction l with
  | nil => simp
  | cons a tl ih =>
    by_cases hp : p a = true
    · have hq := h a hp
      simpa [List.filter_cons, hp, hq] using Nat.succ_le_succ ih
    · by_cases hq : q a = true
      · simp only [List.filter_cons, hp, hq]
        simpa using Nat.le_succ_of_le ih
      · simpa [List.filter_cons, hp, hq] using ih

/-- Counting the records whose field value is `k` is counting `k` in the
mapped column. -/
theorem length_filter_field_eq_count (data : List LidarRecord)
    (f : LidarRecord → ℚ) (k : ℚ) :
    (data.filter (fun r => f r = k)).length = (data.map f).count k := by
  induction data with
  | nil => rfl
  | cons r tl ih =>
    by_cases h : f r = k
    · simp [List.filter_cons, List.count_cons, h, ih]
    · simp [List.filter_cons, List.count_cons, h, ih, Ne.symm h]

/-- On a successful run, `apply_cnr_filter` returns the CNR-filtered rows. -/
theorem apply_cnr_filter_eq_some (df : List LidarRecord) (t : ℚ)
    (L : List LidarRecord) (h : apply_cnr_filter df t = some L) :
    df ≠ [] ∧ L = df.filter (fun r => t ≤ r.cnr) := by
  by_cases hdf : df = []
  · subst hdf
    simp [apply_cnr_filter] at h
  · refine ⟨hdf, ?_⟩
    have hlen : ¬ df.length = 0 := by
      simpa [List.length_eq_zero] using hdf
    simp only [apply_cnr_filter, hlen, if_false, Option.some.injEq] at h
    exact h.symm

/-! ## Claim theorems -/

/-- C10: applying the quality filter to an empty record sequence is not total:
for every threshold `t`, the retained/total ratio report divides by zero and
`apply_cnr_filter` aborts (returns no record list) instead of returning the
empty sequence. -/
theorem cnr_filter_empty_aborts (t : ℚ) :
    apply_cnr_filter [] t = none := rfl

/-- C1 counterexample: on the empty record sequence with threshold `-20`, the
quality filter does not return the (empty) list of records whose CNR meets
the threshold — the retain-ratio report divides by zero and the call aborts. -/
theorem cnr_filter_empty_not_returned :
    apply_cnr_filter [] (-20) ≠
      some (([] : List LidarRecord).filter (fun r => (-20 : ℚ) ≤ r.cnr)) := by
  decide

/-- C1 (amended): for every non-empty record sequence and every threshold `t`,
the quality filter returns exactly the records whose CNR is at least `t`
(boundary retained), as a sublist of the input — original order preserved and
each retained record unchanged. -/
theorem cnr_filter_returns_exactly_threshold (df : List LidarRecord) (t : ℚ)
    (h : df ≠ []) :
    ∃ L, apply_cnr_filter df t = some L ∧ L.Sublist df ∧
      ∀ r, r ∈ L ↔ (r ∈ df ∧ t ≤ r.cnr) := by
  refine ⟨df.filter (fun r => t ≤ r.cnr), ?_, List.filter_sublist _, ?_⟩
  · have hlen : ¬ df.length = 0 := by
      simpa [List.length_eq_zero] using h
    simp [apply_cnr_filter, hlen]
  · intro r
    simp [List.mem_filter]

/-- C1 witness: the spec scenario — CNR values `[-25, -18, -10]` with
threshold `-20` — is a non-empty input on which the filter succeeds and
retains exactly the records meeting the threshold. -/
theorem cnr_filter_returns_exactly_threshold_witness :
    ∃ L, apply_cnr_filter
        [⟨0, 10, 5, 100, 1, -25⟩, ⟨0, 10, 5, 150, 2, -18⟩,
         ⟨0, 10, 5, 200, 3, -10⟩] (-20) = some L ∧
      L.Sublist
        [⟨0, 10, 5, 100, 1, -25⟩, ⟨0, 10, 5, 150, 2, -18⟩,
         ⟨0, 10, 5, 200, 3, -10⟩] ∧
      ∀ r, r ∈ L ↔
        (r ∈ [⟨0, 10, 5, 100, 1, -25⟩, ⟨0, 10, 5, 150, 2, -18⟩,
              ⟨0, 10, 5, 200, 3, -10⟩] ∧ (-20 : ℚ) ≤ r.cnr) :=
  cnr_filter_returns_exactly_threshold _ (-20) (by decide)

/-- C5 counterexample: idempotence fails when the first filtering pass empties
a non-empty input — the second pass then divides by zero and aborts, while the
single pass returns the empty row set. -/
theorem cnr_filter_not_idempotent :
    (apply_cnr_filter [⟨0, 10, 5, 100, 2, -25⟩] (-20)).bind
        (fun d => apply_cnr_filter d (-20)) ≠
      apply_cnr_filter [⟨0, 10, 5, 100, 2, -25⟩] (-20) := by
  decide

/-- C5 (amended): the quality filter is idempotent whenever the first
application succeeds with a non-empty result: in that case applying the filter
twice with the same threshold equals applying it once.  (When the first pass
returns an empty list the second pass aborts on its retain-ratio division, and
on an empty input both sides abort.) -/
theorem cnr_filter_idempotent_of_nonempty (df : List LidarRecord) (t : ℚ)
    (L : List LidarRecord) (h1 : apply_cnr_filter df t = some L)
    (h2 : L ≠ []) :
    (apply_cnr_filter df t).bind (fun d => apply_cnr_filter d t) =
      apply_cnr_filter df t := by
  obtain ⟨hdf, hL⟩ := apply_cnr_filter_eq_some df t L h1
  rw [h1]
  show apply_cnr_filter L t = some L
  have hlen : ¬ L.length = 0 := by
    simpa [List.length_eq_zero] using h2
  have hfix : L.filter (fun r => t ≤ r.cnr) = L := by
    refine List.filter_eq_self.mpr ?_
    intro a ha
    rw [hL] at ha
    exact (List.mem_filter.mp ha).2
  simp [apply_cnr_filter, hlen, hfix]

/-- C5 witness: on a one-record input that survives the threshold, filtering
twice equals filtering once. -/
theorem cnr_filter_idempotent_of_nonempty_witness :
    (apply_cnr_filter [⟨0, 10, 5, 100, 2, -10⟩] (-20)).bind
        (fun d => apply_cnr_filter d (-20)) =
      apply_cnr_filter [⟨0, 10, 5, 100, 2, -10⟩] (-20) :=
  cnr_filter_idempotent_of_nonempty _ (-20) [⟨0, 10, 5, 100, 2, -10⟩]
    (by decide) (by decide)

/-- C6: the quality filter is monotonic in its threshold — whenever both runs
return, raising the threshold never increases the retained count. -/
theorem cnr_filter_threshold_monotone (df : List LidarRecord) (t1 t2 : ℚ)
    (L1 L2 : List LidarRecord) (h12 : t1 ≤ t2)
    (e1 : apply_cnr_filter df t1 = some L1)
    (e2 : apply_cnr_filter df t2 = some L2) :
    L2.length ≤ L1.length := by
  obtain ⟨-, hL1⟩ := apply_cnr_filter_eq_some df t1 L1 e1
  obtain ⟨-, hL2⟩ := apply_cnr_filter_eq_some df t2 L2 e2
  rw [hL1, hL2]
  refine length_filter_mono df _ _ ?_
  intro a ha
  have h2a : t2 ≤ a.cnr := by simpa using ha
  simpa using le_trans h12 h2a

/-- C6 witness: with thresholds `-20 ≤ -15` on the three-record CNR scenario,
the higher threshold retains one record and the lower retains two. -/
theorem cnr_filter_threshold_monotone_witness :
    ([⟨0, 10, 5, 200, 3, -10⟩] : List LidarRecord).length ≤
      ([⟨0, 10, 5, 150, 2, -18⟩, ⟨0, 10, 5, 200, 3, -10⟩] :
        List LidarRecord).length :=
  cnr_filter_threshold_monotone
    [⟨0, 10, 5, 100, 1, -25⟩, ⟨0, 10, 5, 150, 2, -18⟩, ⟨0, 10, 5, 200, 3, -10⟩]
    (-20) (-15) _ _ (by norm_num) (by decide) (by decide)

/-- C2: angle selection with tolerance `0.1` uses a strict absolute-difference
test on both angles, and with both targets given a record is selected iff both
strict-tolerance constraints hold (conjunction).  An exact azimuth match (with
the elevation within tolerance) is selected; an offset of exactly `0.1` in
either angle is excluded (open interval). -/
theorem angle_selection_strict_tolerance (df : List LidarRecord)
    (azimuth elevation : ℚ) (r : LidarRecord) :
    (r ∈ select_angles df azimuth elevation ↔
      (r ∈ df ∧ |r.azimuth - azimuth| < 1 / 10 ∧
        |r.elevation - elevation| < 1 / 10))
    ∧ (r ∈ df → r.azimuth = azimuth → |r.elevation - elevation| < 1 / 10 →
        r ∈ select_angles df azimuth elevation)
    ∧ (|r.azimuth - azimuth| = 1 / 10 →
        r ∉ select_angles df azimuth elevation)
    ∧ (|r.elevation - elevation| = 1 / 10 →
        r ∉ select_angles df azimuth elevation) := by
  have hiff : r ∈ select_angles df azimuth elevation ↔
      (r ∈ df ∧ |r.azimuth - azimuth| < 1 / 10 ∧
        |r.elevation - elevation| < 1 / 10) := by
    simp [select_angles, List.mem_filter, angle_mask, Bool.and_eq_true,
      decide_eq_true_eq, and_assoc]
  refine ⟨hiff, ?_, ?_, ?_⟩
  · intro hmem haz hel
    refine hiff.mpr ⟨hmem, ?_, hel⟩
    rw [haz]
    simp
  · intro hb hmem
    have := (hiff.mp hmem).2.1
    rw [hb] at this
    exact lt_irrefl _ this
  · intro hb hmem
    have := (hiff.mp hmem).2.2
    rw [hb] at this
    exact lt_irrefl _ this

/-- C2 witness: a record whose azimuth equals the target (elevation matching)
is selected, and the same record is excluded when its azimuth is offset from
the target by exactly `0.1`. -/
theorem angle_selection_strict_tolerance_witness :
    ((⟨0, 10, 5, 100, 2, 0⟩ : LidarRecord) ∈
        select_angles [⟨0, 10, 5, 100, 2, 0⟩] 10 5)
    ∧ ((⟨0, 10, 5, 100, 2, 0⟩ : LidarRecord) ∉
        select_angles [⟨0, 10, 5, 100, 2, 0⟩] (99 / 10) 5) :=
  ⟨(angle_selection_strict_tolerance [⟨0, 10, 5, 100, 2, 0⟩] 10 5 _).2.1
      (by simp) rfl (by norm_num),
   (angle_selection_strict_tolerance [⟨0, 10, 5, 100, 2, 0⟩] (99 / 10) 5
      _).2.2.1 (by rw [abs_eq (by norm_num)]; norm_num)⟩

/-- C3: evaluation at the failing input.  One record at azimuth 10,
elevation 5 with CNR `-25` passes the angle-emptiness check of
`compare_cnr_filtering`, but the CNR filter at threshold `-20` then empties
the sample and the after-filter statistics are aggregated anyway, yielding a
NaN-filled summary (count 0, all aggregates NaN) instead of an
`EmptySampleError` skip. -/
theorem cnr_comparison_emits_nan_summary :
    compare_cnr_filtering [⟨0, 10, 5, 100, 2, -25⟩] 10 5 (-20) =
      some ({ count := 1, mean := some 2, std_sq := none,
              min := some 2, max := some 2 },
            { count := 0, mean := none, std_sq := none,
              min := none, max := none }) := by
  have hmask : angle_mask 10 5 ⟨0, 10, 5, 100, 2, -25⟩ = true := by
    simp only [angle_mask, Bool.and_eq_true, decide_eq_true_eq]
    constructor <;> norm_num
  have hsel : select_angles [⟨0, 10, 5, 100, 2, -25⟩] 10 5 =
      [⟨0, 10, 5, 100, 2, -25⟩] := by
    simp [select_angles, List.filter_cons, hmask]
  have hcnr : ¬((-20 : ℚ) ≤ (-25 : ℚ)) := by norm_num
  have hne : ([⟨0, 10, 5, 100, 2, -25⟩] : List LidarRecord) ≠ [] := by simp
  simp [compare_cnr_filtering, hsel, hne, List.filter_cons, hcnr, rws_stats,
    series_mean, series_var, series_min, series_max]

/-- C4: on the sample `[1, 2, 3, 4, 5]` the aggregator returns mean `3`,
median `3`, quantile(0.1) `1.4` by linear interpolation between order
statistics at position `q * (n - 1)`, and sample standard deviation
`√2.5` — its square, the sample variance with divisor `n - 1`, is `5/2`. -/
theorem aggregate_sample_one_to_five :
    series_mean [1, 2, 3, 4, 5] = some 3
    ∧ series_median [1, 2, 3, 4, 5] = some 3
    ∧ series_quantile [1, 2, 3, 4, 5] (1 / 10) = some (7 / 5)
    ∧ series_var [1, 2, 3, 4, 5] = some (5 / 2)
    ∧ Real.sqrt (((series_var [1, 2, 3, 4, 5]).getD 0 : ℚ) : ℝ) =
        Real.sqrt (5 / 2) := by
  have hne : ([1, 2, 3, 4, 5] : List ℚ) ≠ [] := by simp
  have hsorted : List.Sorted (fun a b : ℚ => a ≤ b) ([1, 2, 3, 4, 5] : List ℚ) := by
    norm_num [List.sorted_cons]
  have hfl1 : ⌊(1 / 10 : ℚ) * ((5 : ℚ) - 1)⌋ = 0 := by
    rw [Int.floor_eq_zero_iff]
    constructor <;> norm_num
  have hfl5 : ⌊(1 / 2 : ℚ) * ((5 : ℚ) - 1)⌋ = 2 := by
    rw [Int.floor_eq_iff]
    constructor <;> norm_num
  have hvar : series_var [1, 2, 3, 4, 5] = some (5 / 2) := by
    norm_num [series_var]
  refine ⟨by norm_num [series_mean, hne], ?_, ?_, hvar, ?_⟩
  · norm_num [series_median, series_quantile, hne, hsorted.insertionSort_eq,
      hfl5, (show Int.toNat 2 = 2 from rfl)]
  · norm_num [series_quantile, hne, hsorted.insertionSort_eq, hfl1]
  · rw [hvar]
    norm_num

/-- C7: grouping by range-gate distance (exact value equality) partitions the
input — the per-group record counts sum to the total record count. -/
theorem distance_grouping_preserves_count (data : List LidarRecord) :
    ((distance_group_counts data).map (fun p => p.2)).sum = data.length := by
  unfold distance_group_counts group_keys
  rw [List.map_map]
  have hperm := List.perm_insertionSort (fun a b : ℚ => a ≤ b)
    ((data.map (fun r => r.distance)).dedup)
  rw [(hperm.map _).sum_eq]
  simp only [Function.comp_def, length_filter_field_eq_count]
  rw [List.sum_map_count_dedup_eq_length, List.length_map]

/-- C8: the wind-rose aggregation runs on the full input record set — no CNR
filtering and no elevation restriction appears in its characterization —
grouping by exact equality on the azimuth field, one bucket per distinct
azimuth value present, in strictly ascending azimuth order, and each bucket
value is the mean of `|RWS|` over exactly the records with that azimuth. -/
theorem wind_rose_full_input_mean_abs (df : List LidarRecord) :
    ((wind_rose df).map Prod.fst).Sorted (· < ·)
    ∧ (∀ a : ℚ, a ∈ (wind_rose df).map Prod.fst ↔ ∃ r ∈ df, r.azimuth = a)
    ∧ ∀ p ∈ wind_rose df, ∃ v, p.2 = some v ∧
        v * ((df.filter (fun r => r.azimuth = p.1)).length : ℚ) =
          ((df.filter (fun r => r.azimuth = p.1)).map (fun r => |r.rws|)).sum := by
  have hfst : (wind_rose df).map Prod.fst = group_keys (df.map (·.azimuth)) := by
    simp [wind_rose, List.map_map, Function.comp_def]
  have hperm := List.perm_insertionSort (fun a b : ℚ => a ≤ b)
    ((df.map (·.azimuth)).dedup)
  refine ⟨?_, ?_, ?_⟩
  · rw [hfst]
    have hs : (group_keys (df.map (·.azimuth))).Sorted (· ≤ ·) :=
      List.sorted_insertionSort _ _
    have hnd : (group_keys (df.map (·.azimuth))).Nodup :=
      hperm.nodup_iff.mpr (List.nodup_dedup _)
    exact hs.lt_of_le hnd
  · intro a
    rw [hfst]
    unfold group_keys
    rw [hperm.mem_iff, List.mem_dedup, List.mem_map]
  · intro p hp
    obtain ⟨k, hk, rfl⟩ := List.mem_map.1 hp
    have hkmem : ∃ r ∈ df, r.azimuth = k := by
      have hk2 : k ∈ group_keys (df.map (·.azimuth)) := hk
      rw [group_keys, hperm.mem_iff, List.mem_dedup, List.mem_map] at hk2
      exact hk2
    obtain ⟨r, hr, hraz⟩ := hkmem
    have hfil : r ∈ df.filter (fun x => x.azimuth = k) := by
      rw [List.mem_filter]
      exact ⟨hr, by simp [hraz]⟩
    have hne : (df.filter (fun x => x.azimuth = k)).map (fun r => |r.rws|) ≠ [] := by
      intro hcon
      rw [List.map_eq_nil_iff] at hcon
      rw [hcon] at hfil
      exact List.not_mem_nil r hfil
    have hlen : (((df.filter (fun x => x.azimuth = k)).map
        (fun r => |r.rws|)).length : ℚ) ≠ 0 :=
      Nat.cast_ne_zero.mpr (List.length_pos.mpr hne).ne'
    refine ⟨((df.filter (fun x => x.azimuth = k)).map (fun r => |r.rws|)).sum /
        ((df.filter (fun x => x.azimuth = k)).map (fun r => |r.rws|)).length,
      by simp [series_mean, hne], ?_⟩
    show _ * ((df.filter (fun x => x.azimuth = k)).length : ℚ) = _
    rw [show ((df.filter (fun x => x.azimuth = k)).length : ℚ) =
        (((df.filter (fun x => x.azimuth = k)).map (fun r => |r.rws|)).length : ℚ) by
      rw [List.length_map]]
    exact div_mul_cancel₀ _ hlen

/-- C8 witness: on a two-record input with azimuths 20 and 10, azimuth 10 is
one of the wind-rose buckets. -/
theorem wind_rose_full_input_mean_abs_witness :
    (10 : ℚ) ∈ (wind_rose [⟨0, 20, 5, 100, 3, 0⟩, ⟨0, 10, 5, 100, -2, 0⟩]).map
      Prod.fst :=
  ((wind_rose_full_input_mean_abs
      [⟨0, 20, 5, 100, 3, 0⟩, ⟨0, 10, 5, 100, -2, 0⟩]).2.1 10).mpr
    ⟨⟨0, 10, 5, 100, -2, 0⟩, by simp, rfl⟩

/-- C9 counterexample: the overview stage does not leave the input table
unchanged — `get_data_overview` assigns the derived `AngleComb` column on its
input in place, so even on a table with no rows the input is mutated. -/
theorem get_data_overview_mutates_input :
    get_data_overview ⟨[], none⟩ ≠ (⟨[], none⟩ : DataFrame) := by
  intro h
  have := congrArg DataFrame.angleComb h
  simp [get_data_overview] at this

/-- C9 (amended): the filter, selection and aggregation stages leave the input
table unchanged, and the overview stage leaves the rows unchanged, but the
overview stage is not pure: it adds the `AngleComb` column to the input table
in place, so whenever the column is absent the table it hands on differs from
the input. -/
theorem pipeline_stages_purity (df : DataFrame) :
    (get_data_overview df).records = df.records
    ∧ apply_cnr_filter_input_after df = df
    ∧ single_angle_statistics_input_after df = df
    ∧ (df.angleComb = none → get_data_overview df ≠ df) := by
  refine ⟨rfl, rfl, rfl, ?_⟩
  intro h he
  have hcol := congrArg DataFrame.angleComb he
  rw [h] at hcol
  simp [get_data_overview] at hcol

/-- C9 witness: on a one-row table without the derived column, the overview
stage returns a table different from its input. -/
theorem pipeline_stages_purity_witness :
    get_data_overview ⟨[⟨0, 1, 2, 3, 4, 5⟩], none⟩ ≠
      (⟨[⟨0, 1, 2, 3, 4, 5⟩], none⟩ : DataFrame) :=
  (pipeline_stages_purity ⟨[⟨0, 1, 2, 3, 4, 5⟩], none⟩).2.2.2 rfl
